import Mathlib

/-!
Verification of the cluster inspection subsystem: the log-search session store
(`infoschema/inspection/log/search/search.go`) and the cluster-reader
planner/flattener/merge engine (specified by `executor/cluster_reader_test.go`).

Go code is embedded shallowly: stateful methods become explicit state-passing
functions, `time.Now()` becomes an explicit `now : Nat` argument (seconds),
byte slices become `String`, Go errors become an explicit error type, and the
in-memory token map becomes a function `String → Option IterWithAccessTime`.
-/

namespace Tidb

/-- Log levels of one parsed log item.  The Go side represents them as the
`sysutil`/`parser` log-level enumeration (TRACE, DEBUG, INFO, WARN, ERROR,
CRITICAL, plus an invalid value for unrecognized input). -/
inductive LogLevel where
  | unknown
  | trace
  | debug
  | info
  | warn
  | err
  | critical
deriving DecidableEq

/-- One log item as consumed by the search iterator: its content bytes and its
parsed level (`item.Item` in the Go code, restricted to the two accessors
`GetContent` and `GetLevel` that `IterWithAccessTime.Next` uses). -/
structure Item where
  content : String
  level : LogLevel
deriving DecidableEq

/-- ASCII lower-cased code point of a character, as a natural number. -/
def lowerCode (c : Char) : Nat :=
  if 65 ≤ c.toNat ∧ c.toNat ≤ 90 then c.toNat + 32 else c.toNat

/-- Case-insensitive (ASCII) string comparison. -/
def eqIgnoreCase (a b : String) : Bool :=
  a.data.map lowerCode == b.data.map lowerCode

/-- Modelled from the spec: `parser.ParseLogLevel` is not under `src/`; the
spec states that level matching is case-insensitive, so parsing compares the
input with the canonical level names ignoring case. -/
def ParseLogLevel (s : String) : LogLevel :=
  if eqIgnoreCase s "trace" then .trace
  else if eqIgnoreCase s "debug" then .debug
  else if eqIgnoreCase s "info" then .info
  else if eqIgnoreCase s "warn" then .warn
  else if eqIgnoreCase s "error" then .err
  else if eqIgnoreCase s "critical" then .critical
  else .unknown

/-- Embeds `bytes.Contains(content, pat)`: `pat` occurs as a contiguous substring of
`content` (always true for the empty pattern). -/
def containsBytes (content pat : String) : Bool :=
  decide (pat.toList <:+: content.toList)

/-- Errors surfaced by the search subsystem: `closed` is the Go error
"log file closed", `targetNotFound` is "target not found", `eofErr` models the
underlying sequence reporting exhaustion through its error return, and
`seqFail` models a failure of `NewSequence`. -/
inductive SErr where
  | closed
  | targetNotFound
  | eofErr
  | seqFail (msg : String)
deriving DecidableEq

/-- Session iterator `IterWithAccessTime` from search.go.  The underlying `*Sequence` (whose
implementation is not under `src/`) is modelled from the spec as the list of
its remaining items, presented in order; `none` models the nil pointer after
`Close`.  `access` is the `lastAccess` timestamp in seconds. -/
structure IterWithAccessTime where
  iter : Option (List Item)
  access : Nat
  search : String
  level : String
deriving DecidableEq

/-- Embeds `NewIter(iter, search, level)` with `time.Now()` passed explicitly. -/
def NewIter (items : List Item) (search level : String) (now : Nat) : IterWithAccessTime :=
  ⟨some items, now, search, level⟩

/-- The filter applied by the loop body of `IterWithAccessTime.Next`: the item
content must contain the search bytes, and when a level filter is set the item
level must equal the parsed filter level. -/
def passesFilters (search level : String) (x : Item) : Bool :=
  containsBytes x.content search && (level == "" || x.level == ParseLogLevel level)

/-- The `for` loop inside `IterWithAccessTime.Next`, acting on the underlying
sequence: repeatedly pull the head item, discarding items that fail a filter,
until an item passes (returned together with the remaining sequence) or the
sequence errors out at exhaustion (`none`). -/
def seqNextFiltered (search level : String) : List Item → Option Item × List Item
  | [] => (none, [])
  | x :: rest =>
    if passesFilters search level x then (some x, rest)
    else seqNextFiltered search level rest

/-- Embeds `IterWithAccessTime.Next`: refresh `access` to `now`, then if the iterator
is closed return the `closed` error, otherwise run the filtering loop on the
underlying sequence; exhaustion of the sequence surfaces as `eofErr`. -/
def IterWithAccessTime.Next (i : IterWithAccessTime) (now : Nat) :
    Option Item × Option SErr × IterWithAccessTime :=
  let i1 : IterWithAccessTime := { i with access := now }
  match i1.iter with
  | some items =>
    match seqNextFiltered i1.search i1.level items with
    | (some x, rest) => (some x, none, { i1 with iter := some rest })
    | (none, rest) => (none, some .eofErr, { i1 with iter := some rest })
  | none => (none, some .closed, i1)

/-- Embeds `IterWithAccessTime.Close`: idempotent; on a live iterator it closes the
underlying sequence (modelled from the spec as releasing it without error) and
sets the pointer to nil. -/
def IterWithAccessTime.Close (i : IterWithAccessTime) : Option SErr × IterWithAccessTime :=
  match i.iter with
  | none => (none, i)
  | some _ => (none, { i with iter := none })

/-- Embeds `IterWithAccessTime.GetAccessTime`. -/
def IterWithAccessTime.GetAccessTime (i : IterWithAccessTime) : Nat :=
  i.access

/-- The token map of the searcher, Go `m map[string]*IterWithAccessTime`, as a function
from tokens to entries. -/
def Store : Type := String → Option IterWithAccessTime

/-- The empty map built by `NewSearcher`. -/
def emptyStore : Store := fun _ => none

/-- Embeds `searcher.SetIter`. -/
def SetIter (s : Store) (token : String) (it : IterWithAccessTime) : Store :=
  fun t => if t = token then some it else s t

/-- Embeds `searcher.GetIter`. -/
def GetIter (s : Store) (token : String) : Option IterWithAccessTime :=
  s token

/-- Embeds `searcher.DelIter`. -/
def DelIter (s : Store) (token : String) : Store :=
  fun t => if t = token then none else s t

/-- One observation made by an iteration of the `searcher.Gc` loop: the value
of `time.Now()` and the value of `iter.GetAccessTime()` at the moment of that
check (the access time may have been refreshed concurrently by `Next` calls
between checks, hence one reading per iteration). -/
structure GcObs where
  now : Nat
  access : Nat
deriving DecidableEq

/-- The `for` loop of `searcher.Gc`, run over a finite trace of observations:
at each check, if `access + 60 < now` (the check in the code,
`GetAccessTime().Add(DURATION).Before(time.Now())` with DURATION = 60s), the
token is deleted from the store, the iterator is closed, and the loop breaks;
otherwise the watcher sleeps and checks again.  Returns the final store and
whether the session was removed (and its iterator closed). -/
def gcLoop (s : Store) (token : String) : List GcObs → Store × Bool
  | [] => (s, false)
  | o :: rest =>
    if o.access + 60 < o.now then (DelIter s token, true)
    else gcLoop s token rest

/-- Embeds `searcher.Gc`: registers the iterator under the token (its first action is
`s.SetIter(token, iter)`), then runs the watch loop. -/
def Gc (s : Store) (token : String) (it : IterWithAccessTime) (obs : List GcObs) :
    Store × Bool :=
  gcLoop (SetIter s token it) token obs

/-- Result triple of `searcher.Search`: the iterator, the token, and the
error, all as returned to the caller. -/
structure SearchOutcome where
  iter : Option IterWithAccessTime
  token : String
  err : Option SErr
deriving DecidableEq

/-- Embeds `searcher.Search(dir, begin, end, level, text, token)`.  Explicit
parameters model the effects of the code: `freshToken` is the `uuid.New().String()`
value generated in the empty-token branch, `seqRes` is the outcome of
`NewSequence(dir, begin, end)` (whose implementation is not under `src/`;
modelled from the spec as either a construction error or the list of items it
will yield), and `now` is `time.Now()`.  On a fresh session the spawned
`Gc` goroutine immediately registers the iterator via `SetIter`, which is
folded into the returned store; the subsequent watch loop is `Gc`/`gcLoop`.
Returns the outcome together with the store after the call. -/
def Search (s : Store) (dir : String) (begin0 end0 : Nat)
    (level text token freshToken : String) (seqRes : Except SErr (List Item))
    (now : Nat) : SearchOutcome × Store :=
  if token = "" then
    match seqRes with
    | .error e => (⟨none, freshToken, some e⟩, s)
    | .ok items =>
      let it := NewIter items text level now
      (⟨some it, freshToken, none⟩, SetIter s freshToken it)
  else
    match GetIter s token with
    | none => (⟨none, token, some .targetNotFound⟩, s)
    | some it => (⟨some it, token, none⟩, s)

/-- The stream of items produced by calling `Next` repeatedly (at most `fuel`
times) on an iterator, stopping at the first call that yields no item. -/
def NextStream (i : IterWithAccessTime) (now : Nat) : Nat → List Item
  | 0 => []
  | fuel + 1 =>
    match i.Next now with
    | (some x, _, i2) => x :: NextStream i2 now fuel
    | (none, _, _) => []

/-! Cluster-reader planner, config flattener and log merge.  The executor
implementation is not under `src/` (only its test,
`executor/cluster_reader_test.go`, is), so these definitions are modelled from
the spec, with the request counts asserted by the test and row sets as the
authority where the two differ. -/

/-- One cluster member: its role (`type` column) and its address. -/
structure Member where
  typ : String
  addr : String
deriving DecidableEq

/-- Modelled from the spec: the predicate tree over the `type` and `address`
columns handed to the member-selection planner (equality atoms, IN lists,
AND, OR). -/
inductive PredExpr where
  | typeEq (v : String)
  | addrEq (v : String)
  | typeIn (vs : List String)
  | addrIn (vs : List String)
  | pand (a b : PredExpr)
  | por (a b : PredExpr)
deriving DecidableEq

/-- Intersection of two admissible-value sets, where `none` means "all values
admissible" (no constraint on the column). -/
def interOpt : Option (List String) → Option (List String) → Option (List String)
  | none, b => b
  | some xs, none => some xs
  | some xs, some ys => some (xs.inter ys)

/-- Union of two admissible-value sets, where `none` means "all values
admissible"; a union with an unconstrained side is unconstrained. -/
def unionOpt : Option (List String) → Option (List String) → Option (List String)
  | none, _ => none
  | some _, none => none
  | some xs, some ys => some (xs ∪ ys)

/-- Modelled from the spec: the set of admissible `type` values implied by the
predicate, computed column-wise — AND as set intersection, OR as set union, IN
as a finite set, and atoms on the other column as "all values admissible"
(which makes a general OR across the two columns, such as
`type=v OR address=w`, reduce to no constraint: the conservative
select-all-members fallback asserted by TestTiDBClusterConfig). -/
def admissibleTypes : PredExpr → Option (List String)
  | .typeEq v => some [v]
  | .typeIn vs => some vs
  | .addrEq _ => none
  | .addrIn _ => none
  | .pand a b => interOpt (admissibleTypes a) (admissibleTypes b)
  | .por a b => unionOpt (admissibleTypes a) (admissibleTypes b)

/-- Modelled from the spec: the set of admissible `address` values implied by
the predicate, dual to `admissibleTypes`. -/
def admissibleAddrs : PredExpr → Option (List String)
  | .typeEq _ => none
  | .typeIn _ => none
  | .addrEq v => some [v]
  | .addrIn vs => some vs
  | .pand a b => interOpt (admissibleAddrs a) (admissibleAddrs b)
  | .por a b => unionOpt (admissibleAddrs a) (admissibleAddrs b)

/-- Membership of a column value in an admissible set (`none` allows every value). -/
def memOpt (x : String) : Option (List String) → Bool
  | none => true
  | some vs => vs.contains x

/-- Modelled from the spec: a member is selected (and contacted over the
network) iff its role is in the admissible-type set and its address is in the
admissible-address set. -/
def selectMembers (p : PredExpr) (ms : List Member) : List Member :=
  ms.filter fun m => memOpt m.typ (admissibleTypes p) && memOpt m.addr (admissibleAddrs p)

/-- Number of network calls issued by the fan-out: one per selected member. -/
def requestCount (p : PredExpr) (ms : List Member) : Nat :=
  (selectMembers p ms).length

/-- Row-level evaluation of the predicate against the `type` and
`address` columns, used by the engine to filter the fetched rows. -/
def evalPred : PredExpr → String → String → Bool
  | .typeEq v, t, _ => t == v
  | .addrEq v, _, a => a == v
  | .typeIn vs, t, _ => vs.contains t
  | .addrIn vs, _, a => vs.contains a
  | .pand x y, t, a => evalPred x t a && evalPred y t a
  | .por x y, t, a => evalPred x t a || evalPred y t a

/-- Modelled from the spec: a per-member nested config payload — string keys
mapping to scalar strings or nested mappings, in source order. -/
inductive ConfigValue where
  | str (s : String)
  | table (kvs : List (String × ConfigValue))

/-- Key-path join: `parent.child`, with an empty prefix contributing nothing. -/
def joinKey (pfx k : String) : String :=
  if pfx = "" then k else pfx ++ "." ++ k

mutual

/-- Modelled from the spec: depth-first flattening of one payload value under
a dotted key prefix — a scalar emits one `(dottedKey, value)` row, a nested
mapping recurses with the key appended to the prefix. -/
def flattenValue (pfx : String) : ConfigValue → List (String × String)
  | .str s => [(pfx, s)]
  | .table kvs => flattenKVs pfx kvs

/-- Flattening of the key/value pairs of a mapping, in order. -/
def flattenKVs (pfx : String) : List (String × ConfigValue) → List (String × String)
  | [] => []
  | (k, v) :: rest => flattenValue (joinKey pfx k) v ++ flattenKVs pfx rest

end

mutual

/-- Number of leaf scalars in one payload value. -/
def leafCount : ConfigValue → Nat
  | .str _ => 1
  | .table kvs => leafCountKVs kvs

/-- Number of leaf scalars under the pairs of a mapping. -/
def leafCountKVs : List (String × ConfigValue) → Nat
  | [] => 0
  | (_, v) :: rest => leafCount v + leafCountKVs rest

end

/-- Modelled from the spec: the cluster-config query end to end — fetch the
flattened payload of every selected member as `(type, address, key, value)`
rows in member order, then filter the rows by evaluating the predicate
against the `type` and `address` of each row. -/
def configRows (p : PredExpr) (ms : List Member)
    (payload : List (String × ConfigValue)) : List (String × String × String × String) :=
  (((selectMembers p ms).map fun m =>
      (flattenKVs "" payload).map fun kv => (m.typ, m.addr, kv.1, kv.2)).flatten).filter
    fun r => evalPred p r.1 r.2.1

/-- One log line of the cluster-log table, keyed by its timestamp. -/
structure LogEntry where
  time : Nat
  source : String
  msg : String
deriving DecidableEq

/-- Ordering of log entries by timestamp. -/
def timeLE (a b : LogEntry) : Prop :=
  a.time ≤ b.time

instance : DecidableRel timeLE := fun a b => Nat.decLe a.time b.time

instance : IsTotal LogEntry timeLE := ⟨fun a b => Nat.le_total a.time b.time⟩

instance : IsTrans LogEntry timeLE := ⟨fun _ _ _ h h2 => Nat.le_trans h h2⟩

/-- Modelled from the spec: the per-member Log File Sequence presents the items
of all its rotated files in ascending time order, whatever the physical order
of lines across the current and predecessor files — a look-ahead merge over
the concatenation of the files. -/
def memberSequence (files : List (List LogEntry)) : List LogEntry :=
  List.insertionSort timeLE files.flatten

/-- The two-stream step of the k-way merge: repeatedly emit whichever of the
two head items is not later than the other. -/
def mergeTwo (xs ys : List LogEntry) : List LogEntry :=
  List.merge xs ys (timeLE · ·)

/-- Modelled from the spec: the cross-node merge — one Log File Sequence per
member (each given as its list of rotated files), k-way merged on ascending
time into the single cluster-log stream. -/
def clusterLogMerge (memberFiles : List (List (List LogEntry))) : List LogEntry :=
  (memberFiles.map memberSequence).foldr mergeTwo []

/-- The cluster topology of the tests: every role (`tidb`, `tikv`, `pd`) runs
on each of the three test servers `a0`, `a1`, `a2`. -/
def testMembers : List Member :=
  [⟨"tidb", "a0"⟩, ⟨"tidb", "a1"⟩, ⟨"tidb", "a2"⟩,
   ⟨"tikv", "a0"⟩, ⟨"tikv", "a1"⟩, ⟨"tikv", "a2"⟩,
   ⟨"pd", "a0"⟩, ⟨"pd", "a1"⟩, ⟨"pd", "a2"⟩]

/-- The nested payload served by the mock config endpoint of the test. -/
def testPayload : List (String × ConfigValue) :=
  [("key1", .str "value1"),
   ("key2", .table [("nest1", .str "n-value1"), ("nest2", .str "n-value2")])]

/-- The predicate `type=pd OR address=a0` of the disjunction test case. -/
def orPred : PredExpr :=
  .por (.typeEq "pd") (.addrEq "a0")

/-- The contradictory predicate `type=pd AND type=tikv`. -/
def contraPred : PredExpr :=
  .pand (.typeEq "pd") (.typeEq "tikv")

/-- A live session iterator over an exhausted sequence, last accessed at 0. -/
def liveIter : IterWithAccessTime :=
  ⟨some [], 0, "", ""⟩

/-- A store holding the single live session `tok`. -/
def liveStore : Store :=
  SetIter emptyStore "tok" liveIter

/-- An iterator that has already been closed, last accessed at 0. -/
def closedIter : IterWithAccessTime :=
  ⟨none, 0, "", ""⟩

/-- A small concrete item sequence used to exercise the search filters. -/
def sampleItems : List Item :=
  [⟨"alpha foo", .info⟩, ⟨"beta foo", .critical⟩, ⟨"gamma bar", .critical⟩]

/-! Theorems. -/

/-- Case analysis of `IterWithAccessTime.Next`: the access time is refreshed
to `now` in every case; a closed iterator yields the `closed` error and stays
closed, a live one runs the filtering loop over the underlying sequence. -/
theorem Next_eq (i : IterWithAccessTime) (now : Nat) :
    i.Next now =
      match i.iter with
      | some items =>
        match seqNextFiltered i.search i.level items with
        | (some x, rest) => (some x, none, ⟨some rest, now, i.search, i.level⟩)
        | (none, rest) => (none, some .eofErr, ⟨some rest, now, i.search, i.level⟩)
      | none => (none, some .closed, ⟨none, now, i.search, i.level⟩) := by
  cases i with
  | mk it acc se le => cases it <;> rfl

/-- The Gc watch loop removes the session and stops at the first observation
with `access + 60 < now`; if no observation is stale the store is untouched. -/
theorem gcLoop_eq (s : Store) (token : String) (obs : List GcObs) :
    gcLoop s token obs =
      (if obs.any fun o => o.access + 60 < o.now
       then (DelIter s token, true)
       else (s, false)) := by
  induction obs with
  | nil => rfl
  | cons o rest ih =>
    by_cases h : o.access + 60 < o.now
    · simp [gcLoop, h]
    · simp [gcLoop, h, ih]

/-- When the filtering loop reports no item, every remaining sequence item
fails the filters. -/
theorem seqNextFiltered_none_filter (search level : String) :
    ∀ (items rest : List Item), seqNextFiltered search level items = (none, rest) →
      items.filter (passesFilters search level) = [] := by
  intro items
  induction items with
  | nil => intro _ _; rfl
  | cons x xs ih =>
    intro rest h
    by_cases hp : passesFilters search level x
    · rw [seqNextFiltered, if_pos hp] at h
      simp at h
    · rw [seqNextFiltered, if_neg hp] at h
      simp [List.filter_cons, hp, ih rest h]

/-- When the filtering loop yields an item, that item is the first one passing
the filters, and the remaining sequence is strictly shorter. -/
theorem seqNextFiltered_some_filter (search level : String) :
    ∀ (items rest : List Item) (x : Item), seqNextFiltered search level items = (some x, rest) →
      items.filter (passesFilters search level)
          = x :: rest.filter (passesFilters search level)
        ∧ rest.length < items.length := by
  intro items
  induction items with
  | nil => intro rest x h; exact absurd h (by simp [seqNextFiltered])
  | cons y ys ih =>
    intro rest x h
    by_cases hp : passesFilters search level y
    · rw [seqNextFiltered, if_pos hp] at h
      simp only [Prod.mk.injEq, Option.some.injEq] at h
      obtain ⟨rfl, rfl⟩ := h
      exact ⟨by simp [List.filter_cons, hp], Nat.lt_succ_self _⟩
    · rw [seqNextFiltered, if_neg hp] at h
      obtain ⟨h1, h2⟩ := ih rest x h
      exact ⟨by simp [List.filter_cons, hp, h1], Nat.lt_succ_of_lt h2⟩

/-- C1 counterexample: on a store holding the live session `tok` whose
`lastAccess` is 0, `Search` with token `tok` at time 100 succeeds but the
entry still has `lastAccess` 0 afterwards, not 100 — the claim that `Search`
refreshes the `lastAccess` timestamp of the session is false of the code, which
only reads the entry through `GetIter`. -/
theorem Search_live_token_no_refresh_cex :
    (Search liveStore "dir" 0 0 "lvl" "txt" "tok" "fresh" (.ok []) 100).1.err = none
    ∧ ((GetIter (Search liveStore "dir" 0 0 "lvl" "txt" "tok" "fresh" (.ok []) 100).2 "tok").map
        IterWithAccessTime.access ≠ some 100) := by
  constructor
  · rfl
  · intro h
    simp [Search, GetIter, liveStore, SetIter, emptyStore, liveIter] at h

/-- C1 (amended): for every call to `Search` with a non-empty token whose
entry is live in the store, `Search` returns the stored iterator completely
unchanged — in particular without refreshing its `lastAccess`, which only a
subsequent `Next` call on the iterator refreshes — and leaves the store
unmodified; the `dir`, `begin`, `end`, `level` and `text` arguments and the
sequence construction have no effect on the result or the store. -/
theorem Search_live_token_returns_stored_iter (s : Store) (dir : String) (b e : Nat)
    (level text token freshToken : String) (sq : Except SErr (List Item)) (now : Nat)
    (it : IterWithAccessTime) (htok : token ≠ "") (hit : GetIter s token = some it) :
    Search s dir b e level text token freshToken sq now = (⟨some it, token, none⟩, s) := by
  unfold Search
  rw [if_neg htok, hit]

/-- Witness for C1 at a concrete live session. -/
theorem Search_live_token_returns_stored_iter_witness :
    Search liveStore "d" 1 2 "lv" "tx" "tok" "f" (.ok []) 100
      = (⟨some liveIter, "tok", none⟩, liveStore) :=
  Search_live_token_returns_stored_iter liveStore "d" 1 2 "lv" "tx" "tok" "f" (.ok []) 100
    liveIter (by decide) (by decide)

/-- C3: for every call to `Search` with a non-empty token that has no live
entry in the store, `Search` returns the `target not found` error together
with a nil iterator and the same token, and the store is not modified. -/
theorem Search_dead_token_not_found (s : Store) (dir : String) (b e : Nat)
    (level text token freshToken : String) (sq : Except SErr (List Item)) (now : Nat)
    (htok : token ≠ "") (hnone : GetIter s token = none) :
    Search s dir b e level text token freshToken sq now
      = (⟨none, token, some .targetNotFound⟩, s) := by
  unfold Search
  rw [if_neg htok, hnone]

/-- Witness for C3 on the empty store. -/
theorem Search_dead_token_not_found_witness :
    Search emptyStore "d" 0 0 "" "" "ghost" "f" (.ok []) 3
      = (⟨none, "ghost", some .targetNotFound⟩, emptyStore) :=
  Search_dead_token_not_found emptyStore "d" 0 0 "" "" "ghost" "f" (.ok []) 3
    (by decide) rfl

/-- C4: the idle-GC watcher removes the session from the store (and closes
its iterator) exactly when some check observes `access + 60 < now` — hence
only when `now - lastAccess ≥ 60` at the moment of the check; if every check
observes `now - lastAccess < 60` the session is never removed; and the loop
stops at the triggering check, processing no observations after it. -/
theorem Gc_removes_only_idle (s : Store) (token : String) (it : IterWithAccessTime)
    (obs : List GcObs) :
    (Gc s token it obs =
      (if obs.any fun o => o.access + 60 < o.now
       then (DelIter (SetIter s token it) token, true)
       else (SetIter s token it, false)))
    ∧ ((Gc s token it obs).2 = true → ∃ o, o ∈ obs ∧ 60 ≤ o.now - o.access)
    ∧ ((∀ o, o ∈ obs → o.now - o.access < 60) →
        Gc s token it obs = (SetIter s token it, false))
    ∧ (∀ (o : GcObs) (rest : List GcObs), o.access + 60 < o.now →
        Gc s token it (o :: rest) = (DelIter (SetIter s token it) token, true)) := by
  have key := gcLoop_eq (SetIter s token it) token obs
  refine ⟨key, ?_, ?_, ?_⟩
  · intro hrm
    rw [Gc, key] at hrm
    by_cases ha : obs.any fun o => o.access + 60 < o.now
    · obtain ⟨o, ho, hlt⟩ := List.any_eq_true.mp ha
      simp only [decide_eq_true_eq] at hlt
      exact ⟨o, ho, by omega⟩
    · rw [if_neg ha] at hrm
      simp at hrm
  · intro hall
    have hfalse : (obs.any fun o => o.access + 60 < o.now) = false := by
      rw [List.any_eq_false]
      intro o ho
      have := hall o ho
      simp only [decide_eq_true_eq]
      omega
    rw [Gc, key, hfalse]
    rfl
  · intro o rest ho
    rw [Gc, gcLoop, if_pos ho]

/-- Witness for C4: a check 30 seconds after the last access leaves the
session registered. -/
theorem Gc_removes_only_idle_witness :
    Gc emptyStore "tok" liveIter [⟨30, 0⟩] = (SetIter emptyStore "tok" liveIter, false) :=
  (Gc_removes_only_idle emptyStore "tok" liveIter [⟨30, 0⟩]).2.2.1 (by decide)

/-- C5 counterexample: calling `Next` at time 5 on a closed iterator last
accessed at time 0 returns no item and the `closed` error, but the iterator
state is changed by the call — its access timestamp is refreshed to 5 — so
the claim that such calls leave the state unchanged is false of the code,
which writes `access` before checking for closure. -/
theorem Next_on_closed_changes_state_cex :
    (closedIter.Next 5).1 = none
    ∧ (closedIter.Next 5).2.1 = some .closed
    ∧ (closedIter.Next 5).2.2 ≠ closedIter := by
  refine ⟨rfl, rfl, ?_⟩
  intro h
  simp [Next_eq, closedIter] at h

/-- C5 (amended): after an iterator has been closed (by `Close` or by the
idle GC), every subsequent `Next` call returns no item and the `closed`
error; the call refreshes the access timestamp to the call time but changes
nothing else — the iterator stays closed and its filters are untouched — so
every later `Next` call again returns `closed`.  `Close` always leaves the
underlying sequence nil. -/
theorem Next_after_close_closed_error (i j : IterWithAccessTime) (now : Nat)
    (h : i.iter = none) :
    i.Next now = (none, some .closed, ⟨none, now, i.search, i.level⟩)
    ∧ (j.Close).2.iter = none := by
  constructor
  · rw [Next_eq, h]
  · cases hj : j.iter with
    | none => simp [IterWithAccessTime.Close, hj]
    | some xs => simp [IterWithAccessTime.Close, hj]

/-- Witness for C5 at a concrete closed iterator. -/
theorem Next_after_close_closed_error_witness :
    closedIter.Next 5 = (none, some .closed, ⟨none, 5, "", ""⟩)
    ∧ (liveIter.Close).2.iter = none :=
  Next_after_close_closed_error closedIter liveIter 5 rfl

/-- C6: for every live session iterator with search text and level filter,
the stream produced by repeated `Next` calls (with enough calls to drain the
sequence) is exactly the filter of the items of the underlying sequence — those
whose content contains the search text and, when the level filter is
non-empty, whose level equals its parsed (case-insensitive) form — in the
order of the underlying sequence. -/
theorem iter_next_stream_filters (search level : String) :
    ∀ (fuel : Nat) (items : List Item) (acc now : Nat), items.length ≤ fuel →
      NextStream ⟨some items, acc, search, level⟩ now fuel
        = items.filter (passesFilters search level) := by
  intro fuel
  induction fuel with
  | zero =>
    intro items acc now h
    have hnil : items = [] := List.length_eq_zero.mp (Nat.le_zero.mp h)
    subst hnil
    rfl
  | succ n ih =>
    intro items acc now h
    rcases hs : seqNextFiltered search level items with ⟨o, rest⟩
    cases o with
    | some x =>
      obtain ⟨hf, hl⟩ := seqNextFiltered_some_filter search level items rest x hs
      rw [hf]
      simp only [NextStream, Next_eq, hs]
      congr 1
      exact ih rest now now (Nat.le_of_lt_succ (Nat.lt_of_lt_of_le hl h))
    | none =>
      rw [seqNextFiltered_none_filter search level items rest hs]
      simp only [NextStream, Next_eq, hs]

/-- Witness for C6: with search text `foo` and the upper-case level filter
`CRITICAL`, draining the sample sequence yields exactly its one critical item
containing `foo`. -/
theorem iter_next_stream_filters_witness :
    NextStream ⟨some sampleItems, 0, "foo", "CRITICAL"⟩ 7 3
      = [⟨"beta foo", LogLevel.critical⟩] := by
  have h := iter_next_stream_filters "foo" "CRITICAL" 3 sampleItems 0 7 (by decide)
  rw [h]
  decide

/-- C10: if `Search` is called with an empty token and the sequence
construction fails, it returns the error together with the freshly generated
token and a nil iterator while the store is unchanged — no session is
registered under that token (and no GC watcher is started) — so a later
`Search` call presenting that token fails with `target not found`. -/
theorem Search_seq_error_no_session (s : Store) (dir : String) (b e : Nat)
    (level text freshToken : String) (er : SErr) (now : Nat)
    (dir2 : String) (b2 e2 : Nat) (level2 text2 ft2 : String)
    (sq2 : Except SErr (List Item)) (now2 : Nat)
    (hf : freshToken ≠ "") (hfresh : GetIter s freshToken = none) :
    Search s dir b e level text "" freshToken (.error er) now
      = (⟨none, freshToken, some er⟩, s)
    ∧ Search s dir2 b2 e2 level2 text2 freshToken ft2 sq2 now2
        = (⟨none, freshToken, some .targetNotFound⟩, s) := by
  constructor
  · rfl
  · unfold Search
    rw [if_neg hf, hfresh]

/-- Witness for C10 on the empty store. -/
theorem Search_seq_error_no_session_witness :
    Search emptyStore "d" 0 0 "" "" "" "u1" (.error (.seqFail "boom")) 9
      = (⟨none, "u1", some (.seqFail "boom")⟩, emptyStore)
    ∧ Search emptyStore "d2" 1 2 "l2" "t2" "u1" "u2" (.ok []) 10
        = (⟨none, "u1", some .targetNotFound⟩, emptyStore) :=
  Search_seq_error_no_session emptyStore "d" 0 0 "" "" "u1" (.seqFail "boom") 9
    "d2" 1 2 "l2" "t2" "u2" (.ok []) 10 (by decide) rfl

/-- C7: for every predicate whose column-wise reduction yields an empty
admissible set for the `type` column (jointly unsatisfiable type constraints),
member selection is empty, so the planner issues exactly zero network calls
and the query returns an empty result set. -/
theorem empty_type_intersection_no_calls (p : PredExpr) (ms : List Member)
    (payload : List (String × ConfigValue)) (h : admissibleTypes p = some []) :
    requestCount p ms = 0 ∧ configRows p ms payload = [] := by
  have hsel : selectMembers p ms = [] := by
    simp [selectMembers, h, memOpt]
  constructor
  · rw [requestCount, hsel]
    rfl
  · rw [configRows, hsel]
    rfl

/-- Witness for C7 at the predicate `type=pd AND type=tikv` over the test
topology. -/
theorem empty_type_intersection_no_calls_witness :
    requestCount contraPred testMembers = 0
    ∧ configRows contraPred testMembers testPayload = [] :=
  empty_type_intersection_no_calls contraPred testMembers testPayload (by decide)

/-- C2 counterexample: for the predicate `type=pd OR address=a0` over the
test topology (every role on each of the three servers), the planner issues
9 network calls, not 3, and the query returns 15 result rows (5 matching
members times 3 config rows each), not 5 — the request counts asserted by
TestTiDBClusterConfig for this disjunction are 9 calls and those 15 rows. -/
theorem or_predicate_three_calls_cex :
    requestCount orPred testMembers ≠ 3
    ∧ (configRows orPred testMembers testPayload).length ≠ 5 := by
  decide

/-- C2 (amended): for the cluster-config query with predicate
`type=pd OR address=a0` over a cluster where every role runs on every test
server, the disjunction across the two columns cannot be column-reduced, so
all 9 members are selected — exactly 9 network calls — and row filtering
keeps exactly the 15 rows of the 5 members satisfying the predicate, in
member order. -/
theorem or_predicate_nine_calls :
    requestCount orPred testMembers = 9
    ∧ configRows orPred testMembers testPayload =
      [("tidb", "a0", "key1", "value1"), ("tidb", "a0", "key2.nest1", "n-value1"),
       ("tidb", "a0", "key2.nest2", "n-value2"),
       ("tikv", "a0", "key1", "value1"), ("tikv", "a0", "key2.nest1", "n-value1"),
       ("tikv", "a0", "key2.nest2", "n-value2"),
       ("pd", "a0", "key1", "value1"), ("pd", "a0", "key2.nest1", "n-value1"),
       ("pd", "a0", "key2.nest2", "n-value2"),
       ("pd", "a1", "key1", "value1"), ("pd", "a1", "key2.nest1", "n-value1"),
       ("pd", "a1", "key2.nest2", "n-value2"),
       ("pd", "a2", "key1", "value1"), ("pd", "a2", "key2.nest1", "n-value1"),
       ("pd", "a2", "key2.nest2", "n-value2")] := by
  decide

mutual

/-- Flattening a payload value yields one row per leaf scalar. -/
theorem flattenValue_length (pfx : String) :
    (v : ConfigValue) → (flattenValue pfx v).length = leafCount v
  | .str s => by simp [flattenValue, leafCount]
  | .table kvs => by
    rw [flattenValue, leafCount]
    exact flattenKVs_length pfx kvs

/-- Flattening the pairs of a mapping yields one row per leaf scalar below them. -/
theorem flattenKVs_length (pfx : String) :
    (kvs : List (String × ConfigValue)) → (flattenKVs pfx kvs).length = leafCountKVs kvs
  | [] => by simp [flattenKVs, leafCountKVs]
  | (k, v) :: rest => by
    rw [flattenKVs, leafCountKVs, List.length_append,
      flattenValue_length (joinKey pfx k) v, flattenKVs_length pfx rest]

end

/-- C9: flattening emits exactly one row per leaf scalar, keyed by the dotted
path of mapping keys; in particular the test payload flattens to exactly the
three rows below.  The embedding is purely functional, so the input payload
trivially cannot be mutated by flattening. -/
theorem config_flatten_rows :
    flattenKVs "" testPayload =
      [("key1", "value1"), ("key2.nest1", "n-value1"), ("key2.nest2", "n-value2")]
    ∧ ∀ (pfx : String) (v : ConfigValue), (flattenValue pfx v).length = leafCount v :=
  ⟨by decide, fun pfx v => flattenValue_length pfx v⟩

/-- Folding the two-stream merge over sorted streams yields a sorted stream. -/
theorem sorted_foldr_mergeTwo :
    ∀ (ls : List (List LogEntry)), (∀ l ∈ ls, List.Sorted timeLE l) →
      List.Sorted timeLE (ls.foldr mergeTwo []) := by
  intro ls
  induction ls with
  | nil => intro _; exact List.sorted_nil
  | cons l rest ih =>
    intro h
    have h1 : List.Sorted timeLE l := h l (List.mem_cons_self l rest)
    have h2 := ih fun x hx => h x (List.mem_cons_of_mem l hx)
    exact h1.merge h2

/-- C8: for every set of members, each with its log lines split across any
number of files in any per-file physical order, the merged cluster-log output
is sorted non-decreasing by item time across all members and all files. -/
theorem cluster_log_merge_sorted (memberFiles : List (List (List LogEntry))) :
    List.Sorted timeLE (clusterLogMerge memberFiles) := by
  apply sorted_foldr_mergeTwo
  intro l hl
  simp only [List.mem_map] at hl
  obtain ⟨files, _, rfl⟩ := hl
  exact List.sorted_insertionSort timeLE files.flatten

end Tidb
